import Mathlib

/-!
Shallow embedding of the EV-chargers / ULEV-registrations pipeline
(`src/main.py`).  Tables are lists of records; pandas/numpy operations
are translated operation by operation:

* `pd.DataFrame.drop` of the sentinel rows (lines 46-47)  → `List.filter`;
* `DatetimeIndex(col).year` (line 54)                      → leading four
  digits of the timestamp string (`yearOfDate`);
* `groupby(year).count()` (lines 57, 172)                  → counts over
  the ascending-sorted distinct years (pandas groupby sorts its keys);
* `cumsum` (lines 58, 68, 175)                             → `cumsum`;
* `iloc[:, a:b].sum(axis=1)` (lines 65, 68)                → sum of a
  positional slice of the row (Python slice semantics = `drop`/`take`);
* `merge(..., how='inner', left_on=.., right_on=..)` (137) → inner join
  preserving left-key order, as pandas documents for `how='inner'`;
* numpy elementwise `/` on arrays (line 179)               → `npDivArr`,
  with the length-1 broadcasting rule and the `ValueError` on other
  length mismatches; scalar division by zero yields `inf`/`-inf`/`nan`
  exactly as numpy float division does (`npDiv`);
* numpy indexing `ratio[8]` (line 182)                     → `npIndex`,
  `IndexError` out of bounds.
-/

/-- One row of the charger registry after column selection (line 16-17 of
`main.py`): `chargeDeviceID`, `latitude`, `longitude`, `chargeDeviceStatus`,
`dateCreated`. -/
structure ChargerRow where
  chargeDeviceID : String
  latitude : ℚ
  longitude : ℚ
  chargeDeviceStatus : String
  dateCreated : String
deriving DecidableEq, Repr

/-- The literal zero-date sentinel dropped by lines 46-47. -/
def sentinelDate : String := "0000-00-00 00:00:00"

/-- Lines 46-47: build the index of rows whose `dateCreated` equals the
sentinel and drop them; on a unique range index this keeps exactly the
non-sentinel rows in order. -/
def cleanChargers (rows : List ChargerRow) : List ChargerRow :=
  rows.filter (fun r => r.dateCreated ≠ sentinelDate)

/-- Line 54: `pd.DatetimeIndex(data_ev_chargers['dateCreated']).year`,
modelled as the leading four digits of the `YYYY-MM-DD HH:MM:SS` string. -/
def yearOfDate (s : String) : Int :=
  Int.ofNat ((s.data.take 4).foldl (fun a c => a * 10 + (c.toNat - 48)) 0)

/-- Derived `yearCreated` field of a charger row. -/
def yearCreated (r : ChargerRow) : Int := yearOfDate r.dateCreated

/-- Distinct keys of a grouping column in ascending order: pandas
`groupby` sorts its group keys. -/
def sortedUniqueYears (ys : List Int) : List Int :=
  List.insertionSort (· ≤ ·) ys.dedup

/-- Running cumulative sum with an accumulator. -/
def cumsumFrom {α : Type} [Add α] (acc : α) : List α → List α
  | [] => []
  | x :: xs => (acc + x) :: cumsumFrom (acc + x) xs

/-- `Series.cumsum()`: element `i` of the result is the sum of the first
`i + 1` elements of the input. -/
def cumsum {α : Type} [Add α] [Zero α] (xs : List α) : List α :=
  cumsumFrom 0 xs

/-- The grouping column: `yearCreated` of every row, in row order. -/
def yearsCol (rows : List ChargerRow) : List Int :=
  rows.map yearCreated

/-- The group keys produced by `groupby('yearCreated')`: the distinct
years, ascending. -/
def groupKeys (rows : List ChargerRow) : List Int :=
  sortedUniqueYears (yearsCol rows)

/-- The per-group row counts, one per group key, in key order. -/
def groupCounts (rows : List ChargerRow) : List Nat :=
  (groupKeys rows).map (fun y => (yearsCol rows).count y)

/-- Lines 57-58 in general form: group a list of rows by year, count rows
per group (`num_charges`), and attach the running cumulative sum
(`rollingSUM`).  Result rows are `(year, count, cumulative)`, one per
distinct year, ascending. -/
def yearlyAgg (rows : List ChargerRow) : List (Int × Nat × Nat) :=
  (groupKeys rows).zip ((groupCounts rows).zip (cumsum (groupCounts rows)))

/-- Lines 57-58: `chargers_installed`, the yearly aggregate of the cleaned
charger table. -/
def chargersInstalled (rows : List ChargerRow) : List (Int × Nat × Nat) :=
  yearlyAgg rows

/-- One row of the vehicle spreadsheet: column 0 is `Date` (a year);
`cols` holds the numeric columns from position 1 on, so spreadsheet
column `iloc[:, i]` (for `i ≥ 1`) is `cols[i-1]`.  `cols[0]` is
`Battery Electric`, `cols[1]` is `Plug-in Hybrid Electric 2`,
`cols[2] .. cols[5]` are the four other-ULEV sub-category columns. -/
structure CarRow where
  Date : Int
  cols : List ℤ
deriving DecidableEq, Repr

/-- Line 65: `data_ev_cars.iloc[:, 3:7].sum(axis=1)` for one row — the sum
of positional columns 3,4,5,6, i.e. `cols[2..5]`. -/
def otherULEVs (r : CarRow) : ℤ :=
  ((r.cols.drop 2).take 4).sum

/-- Row-wise base of line 68: `data_ev_cars.iloc[:, 1:3].sum(axis=1)` —
battery-electric plus plug-in-hybrid for one row. -/
def plugBase (r : CarRow) : ℤ :=
  (r.cols.take 2).sum

/-- Line 68: the `plug_rollingSUM` column — cumulative sum of `plugBase`
across the vehicle rows in their existing order. -/
def plugRollingSUM (cars : List CarRow) : List ℤ :=
  cumsum (cars.map plugBase)

/-- The vehicle table with its derived `plug_rollingSUM` column attached
(each row paired with its cumulative value), as it stands before the
merge at line 137. -/
def carsWithPlugRoll (cars : List CarRow) : List (CarRow × ℤ) :=
  cars.zip (plugRollingSUM cars)

/-- Line 137: `chargers_installed.merge(data_ev_cars, how='inner',
left_on='yearCreated', right_on='Date')`.  Inner join: each left row is
paired with every right row carrying an equal key, left-key order
preserved. -/
def evMerged (chargers : List ChargerRow) (cars : List CarRow) :
    List ((Int × Nat × Nat) × (CarRow × ℤ)) :=
  (chargersInstalled (cleanChargers chargers)).flatMap
    (fun l => ((carsWithPlugRoll cars).filter (fun rc => rc.1.Date = l.1)).map
      (fun rc => (l, rc)))

/-- Line 165: `plug_array = np.array(ev_merged['plug_rollingSUM'])`. -/
def plugArray (chargers : List ChargerRow) (cars : List CarRow) : List ℤ :=
  (evMerged chargers cars).map (fun p => p.2.2)

/-- Lines 168-169: filter the cleaned charger table to rows with
`chargeDeviceStatus == "In service"` and `yearCreated != 2021`. -/
def inServiceRows (rows : List ChargerRow) : List ChargerRow :=
  (cleanChargers rows).filter
    (fun r => r.chargeDeviceStatus = "In service" ∧ yearCreated r ≠ 2021)

/-- Lines 172-175: `ev_chargers_in_service` — yearly aggregate
(`num_charges_in_service`, `rollingSUM_in_service`) of the in-service
non-2021 rows. -/
def inServiceAgg (rows : List ChargerRow) : List (Int × Nat × Nat) :=
  yearlyAgg (inServiceRows rows)

/-- Line 176: `chargers_avail = np.array(ev_chargers_in_service['rollingSUM_in_service'])`
— the `rollingSUM_in_service` column of the in-service aggregate. -/
def chargersAvail (rows : List ChargerRow) : List Nat :=
  (inServiceAgg rows).map (fun t => t.2.2)

/-- The `chargers_avail` array as signed integers, ready for the numpy
division (the counts are `int64` in the program). -/
def chargersAvailZ (rows : List ChargerRow) : List ℤ :=
  (chargersAvail rows).map (fun n : ℕ => (n : ℤ))

/-- A numpy float value: finite, `inf`, `-inf` or `nan`. -/
inductive NpVal where
  | fin (q : ℚ)
  | inf
  | ninf
  | nan
deriving DecidableEq, Repr

/-- Scalar numpy division of two `int64` values under true division:
finite rational quotient when the divisor is nonzero; `x/0` is `inf` for
`x > 0`, `-inf` for `x < 0`, `nan` for `0/0`. -/
def npDiv (a b : ℤ) : NpVal :=
  if b ≠ 0 then NpVal.fin ((a : ℚ) / (b : ℚ))
  else if 0 < a then NpVal.inf
  else if a < 0 then NpVal.ninf
  else NpVal.nan

/-- Elementwise numpy division of two 1-d arrays: pointwise at equal
lengths, length-1 operands broadcast, anything else raises `ValueError`. -/
def npDivArr (xs ys : List ℤ) : Except String (List NpVal) :=
  if xs.length = ys.length then Except.ok (List.zipWith npDiv xs ys)
  else if xs.length = 1 then Except.ok (ys.map (fun y => npDiv xs.headI y))
  else if ys.length = 1 then Except.ok (xs.map (fun x => npDiv x ys.headI))
  else Except.error "ValueError: operands could not be broadcast together"

/-- Line 179: `ratio = plug_array / chargers_avail`. -/
def ratioSeries (chargers : List ChargerRow) (cars : List CarRow) :
    Except String (List NpVal) :=
  npDivArr (plugArray chargers cars) (chargersAvailZ chargers)

/-- Numpy 1-d array indexing: `IndexError` when out of bounds. -/
def npIndex {α : Type} (xs : List α) (i : Nat) : Except String α :=
  match xs.get? i with
  | some v => Except.ok v
  | none => Except.error "IndexError: index out of bounds"

/-- Line 182: the value stored under key `'2020'` — `ratio[8]`. -/
def ratioScalar2020 (chargers : List ChargerRow) (cars : List CarRow) :
    Except String NpVal :=
  (ratioSeries chargers cars).bind (fun arr => npIndex arr 8)

/-- Modelled from the claim and spec section 3 (refinement target, not
from the code): the ratio series with BOTH operands taken from the
joined-on-year series — each joined row's cumulative plug-in count
divided by the cumulative in-service (non-2021) charger count through
that row's year. -/
def ratioSpecClaim (chargers : List ChargerRow) (cars : List CarRow) :
    List NpVal :=
  (evMerged chargers cars).map
    (fun p =>
      npDiv p.2.2
        (((inServiceRows chargers).filter (fun r => yearCreated r ≤ p.1.1)).length : ℤ))

/-! ### Helper lemmas -/

theorem cumsumFrom_length {α : Type} [Add α] (acc : α) (xs : List α) :
    (cumsumFrom acc xs).length = xs.length := by
  induction xs generalizing acc with
  | nil => rfl
  | cons x t ih => simp [cumsumFrom, ih]

theorem cumsum_length {α : Type} [Add α] [Zero α] (xs : List α) :
    (cumsum xs).length = xs.length :=
  cumsumFrom_length 0 xs

theorem cumsumFrom_get? {α : Type} [AddMonoid α] (acc : α) (xs : List α)
    (i : Nat) (h : i < xs.length) :
    (cumsumFrom acc xs).get? i = some (acc + (xs.take (i + 1)).sum) := by
  induction xs generalizing acc i with
  | nil => simp at h
  | cons x t ih =>
    cases i with
    | zero => simp [cumsumFrom]
    | succ j =>
      have hj : j < t.length := by simpa using h
      simp only [cumsumFrom, List.get?_cons_succ, List.take_succ_cons,
        List.sum_cons]
      rw [ih (acc + x) j hj, add_assoc]

theorem cumsum_get? {α : Type} [AddMonoid α] (xs : List α) (i : Nat)
    (h : i < xs.length) :
    (cumsum xs).get? i = some ((xs.take (i + 1)).sum) := by
  rw [cumsum, cumsumFrom_get? 0 xs i h, zero_add]

theorem cumsum_getD {α : Type} [AddMonoid α] (xs : List α) (i : Nat)
    (h : i < xs.length) :
    (cumsum xs).getD i 0 = (xs.take (i + 1)).sum := by
  rw [List.getD_eq_get?, cumsum_get? xs i h, Option.getD_some]

theorem mem_cumsumFrom_pos (acc : Nat) (xs : List Nat)
    (hx : ∀ x ∈ xs, 1 ≤ x) : ∀ e ∈ cumsumFrom acc xs, 1 ≤ e := by
  induction xs generalizing acc with
  | nil => intro e he; simp [cumsumFrom] at he
  | cons x t ih =>
    intro e he
    rcases (List.mem_cons.1 he) with h1 | h2
    · subst h1
      have : 1 ≤ x := hx x (List.mem_cons_self x t)
      omega
    · exact ih (acc + x) (fun z hz => hx z (List.mem_cons_of_mem x hz)) e h2

theorem mem_sortedUniqueYears {ys : List Int} {y : Int} :
    y ∈ sortedUniqueYears ys ↔ y ∈ ys := by
  rw [sortedUniqueYears, (List.perm_insertionSort (· ≤ ·) ys.dedup).mem_iff,
    List.mem_dedup]

theorem sum_sortedUniqueYears_counts (ys : List Int) :
    ((sortedUniqueYears ys).map (fun y => ys.count y)).sum = ys.length := by
  have hp : (sortedUniqueYears ys).Perm ys.dedup :=
    List.perm_insertionSort (· ≤ ·) ys.dedup
  rw [(hp.map (fun y => ys.count y)).sum_eq]
  exact List.sum_map_count_dedup_eq_length ys

theorem length_groupCounts (rows : List ChargerRow) :
    (groupCounts rows).length = (groupKeys rows).length := by
  simp [groupCounts]

theorem length_yearlyAgg (rows : List ChargerRow) :
    (yearlyAgg rows).length = (groupKeys rows).length := by
  simp [yearlyAgg, List.length_zip, length_groupCounts, cumsum_length]

theorem getD_of_lt {α : Type} (l : List α) (d : α) (i : Nat)
    (h : i < l.length) : l.get? i = some (l.getD i d) := by
  rw [List.getD_eq_get?, List.get?_eq_get h, Option.getD_some]

theorem yearlyAgg_get? (rows : List ChargerRow) (i : Nat)
    (h : i < (groupKeys rows).length) :
    (yearlyAgg rows).get? i =
      some ((groupKeys rows).getD i 0, (groupCounts rows).getD i 0,
        ((groupCounts rows).take (i + 1)).sum) := by
  have hc : i < (groupCounts rows).length := by rw [length_groupCounts]; exact h
  rw [yearlyAgg, List.get?_zip_eq_some, List.get?_zip_eq_some]
  exact ⟨getD_of_lt _ 0 i h, getD_of_lt _ 0 i hc, cumsum_get? _ i hc⟩

theorem yearlyAgg_map_num (rows : List ChargerRow) :
    (yearlyAgg rows).map (fun t => t.2.1) = groupCounts rows := by
  have h1 : ((groupCounts rows).zip (cumsum (groupCounts rows))).length
      ≤ (groupKeys rows).length := by
    simp [List.length_zip, length_groupCounts, cumsum_length]
  have h2 : (groupCounts rows).length ≤ (cumsum (groupCounts rows)).length := by
    rw [cumsum_length]
  calc (yearlyAgg rows).map (fun t => t.2.1)
      = ((yearlyAgg rows).map Prod.snd).map Prod.fst := by
        rw [List.map_map]; rfl
    _ = groupCounts rows := by
        rw [yearlyAgg, List.map_snd_zip _ _ h1, List.map_fst_zip _ _ h2]

theorem yearlyAgg_map_roll (rows : List ChargerRow) :
    (yearlyAgg rows).map (fun t => t.2.2) = cumsum (groupCounts rows) := by
  have h1 : ((groupCounts rows).zip (cumsum (groupCounts rows))).length
      ≤ (groupKeys rows).length := by
    simp [List.length_zip, length_groupCounts, cumsum_length]
  have h2 : (cumsum (groupCounts rows)).length ≤ (groupCounts rows).length := by
    rw [cumsum_length]
  calc (yearlyAgg rows).map (fun t => t.2.2)
      = ((yearlyAgg rows).map Prod.snd).map Prod.snd := by
        rw [List.map_map]; rfl
    _ = cumsum (groupCounts rows) := by
        rw [yearlyAgg, List.map_snd_zip _ _ h1, List.map_snd_zip _ _ h2]

theorem groupCounts_pos (rows : List ChargerRow) :
    ∀ c ∈ groupCounts rows, 1 ≤ c := by
  intro c hc
  rcases List.mem_map.1 hc with ⟨y, hy, hcy⟩
  have hmem : y ∈ yearsCol rows := mem_sortedUniqueYears.1 hy
  have : 0 < (yearsCol rows).count y := List.count_pos_iff.2 hmem
  omega

theorem count_map_year (l : List ChargerRow) (y : Int) :
    (l.map yearCreated).count y =
      (l.filter (fun r => yearCreated r = y)).length := by
  induction l with
  | nil => rfl
  | cons r t ih =>
    by_cases hr : yearCreated r = y
    · simp [List.count_cons, List.filter_cons, hr, ih]
    · simp [List.count_cons, List.filter_cons, hr, ih]

theorem yearlyAgg_map_fst (rows : List ChargerRow) :
    (yearlyAgg rows).map Prod.fst = groupKeys rows := by
  have h1 : (groupKeys rows).length
      ≤ ((groupCounts rows).zip (cumsum (groupCounts rows))).length := by
    simp [List.length_zip, length_groupCounts, cumsum_length]
  rw [yearlyAgg, List.map_fst_zip _ _ h1]

theorem groupCounts_getD (rows : List ChargerRow) (i : Nat)
    (h : i < (groupKeys rows).length) :
    (groupCounts rows).getD i 0 =
      (yearsCol rows).count ((groupKeys rows).getD i 0) := by
  have h2 : i < (groupCounts rows).length := by rw [length_groupCounts]; exact h
  have hc := getD_of_lt (groupCounts rows) 0 i h2
  have hmap : (groupCounts rows).get? i =
      some ((yearsCol rows).count ((groupKeys rows).getD i 0)) := by
    show ((groupKeys rows).map (fun y => (yearsCol rows).count y)).get? i = _
    rw [List.get?_map, getD_of_lt (groupKeys rows) 0 i h]
    rfl
  exact Option.some.inj (hc.symm.trans hmap)

theorem exists_of_mem_zipWith {α β γ : Type} {f : α → β → γ}
    {xs : List α} {ys : List β} {c : γ}
    (h : c ∈ List.zipWith f xs ys) : ∃ a b, a ∈ xs ∧ b ∈ ys ∧ c = f a b := by
  induction xs generalizing ys with
  | nil => simp at h
  | cons x xt ih =>
    cases ys with
    | nil => simp at h
    | cons y yt =>
      rcases List.mem_cons.1 h with h1 | h2
      · exact ⟨x, y, List.mem_cons_self _ _, List.mem_cons_self _ _, h1⟩
      · rcases ih h2 with ⟨a, b, ha, hb, hc⟩
        exact ⟨a, b, List.mem_cons_of_mem _ ha, List.mem_cons_of_mem _ hb, hc⟩

theorem npDiv_of_ne (a b : ℤ) (hb : b ≠ 0) : npDiv a b = NpVal.fin ((a : ℚ) / (b : ℚ)) := by
  rw [npDiv, if_pos hb]

theorem chargersAvail_pos (rows : List ChargerRow) :
    ∀ v ∈ chargersAvail rows, 1 ≤ v := by
  intro v hv
  rw [chargersAvail, inServiceAgg, yearlyAgg_map_roll] at hv
  exact mem_cumsumFrom_pos 0 _ (groupCounts_pos _) v hv

/-! ### Concrete example inputs -/

/-- A charger row with the given timestamp year and status. -/
def mkCharger (y : String) (st : String) : ChargerRow :=
  ⟨"id", 50, 0, st, y ++ "-01-01 00:00:00"⟩

/-- Three charger rows: 2018 and 2019 in service, 2020 out of service. -/
def exChargersA : List ChargerRow :=
  [mkCharger "2018" "In service", mkCharger "2019" "In service",
   mkCharger "2020" "Out of service"]

/-- Two vehicle rows for years 2019 and 2020. -/
def exCarsA : List CarRow :=
  [⟨2019, [4, 0, 0, 0, 0, 0]⟩, ⟨2020, [2, 0, 0, 0, 0, 0]⟩]

/-- Nine in-service charger rows, one per year 2010..2018. -/
def exChargersB : List ChargerRow :=
  [mkCharger "2010" "In service", mkCharger "2011" "In service",
   mkCharger "2012" "In service", mkCharger "2013" "In service",
   mkCharger "2014" "In service", mkCharger "2015" "In service",
   mkCharger "2016" "In service", mkCharger "2017" "In service",
   mkCharger "2018" "In service"]

/-- A single vehicle row whose year matches one of the nine charger years. -/
def exCarsB : List CarRow := [⟨2014, [5, 0, 0, 0, 0, 0]⟩]

/-- Nine vehicle rows matching the nine charger years 2010..2018. -/
def exCarsC : List CarRow :=
  [⟨2010, [1, 0, 0, 0, 0, 0]⟩, ⟨2011, [1, 0, 0, 0, 0, 0]⟩,
   ⟨2012, [1, 0, 0, 0, 0, 0]⟩, ⟨2013, [1, 0, 0, 0, 0, 0]⟩,
   ⟨2014, [1, 0, 0, 0, 0, 0]⟩, ⟨2015, [1, 0, 0, 0, 0, 0]⟩,
   ⟨2016, [1, 0, 0, 0, 0, 0]⟩, ⟨2017, [1, 0, 0, 0, 0, 0]⟩,
   ⟨2018, [1, 0, 0, 0, 0, 0]⟩]

/-- Five charger rows with years `[2019, 2019, 2020, 2020, 2020]` — the
worked example of the spec. -/
def exChargersD : List ChargerRow :=
  [mkCharger "2019" "In service", mkCharger "2019" "In service",
   mkCharger "2020" "In service", mkCharger "2020" "In service",
   mkCharger "2020" "In service"]

/-! ### Claims -/

/-- C3: after the cleaning step no remaining charger row carries the
sentinel `"0000-00-00 00:00:00"` timestamp, and exactly the sentinel rows
are removed — a non-sentinel row keeps its multiplicity in the cleaned
table, a sentinel row has multiplicity zero. -/
theorem claim_C3_clean_sentinel (rows : List ChargerRow) (r : ChargerRow) :
    (∀ x ∈ cleanChargers rows, x.dateCreated ≠ sentinelDate) ∧
    (cleanChargers rows).count r =
      (if r.dateCreated = sentinelDate then 0 else rows.count r) := by
  constructor
  · intro x hx
    have hm := List.mem_filter.1 hx
    simpa using hm.2
  · by_cases hr : r.dateCreated = sentinelDate
    · rw [if_pos hr, List.count_eq_zero]
      intro hmem
      have hm := (List.mem_filter.1 hmem).2
      simp [hr] at hm
    · rw [if_neg hr]
      exact List.count_filter (by simpa using hr)

/-- C4: the `num_charges` column of the yearly aggregate of any cleaned
charger table sums to the number of cleaned rows, and the worked example
with input years `[2019, 2019, 2020, 2020, 2020]` yields exactly the rows
`(2019, 2, 2)` and `(2020, 3, 5)`. -/
theorem claim_C4_counts_sum (rows : List ChargerRow) :
    ((chargersInstalled (cleanChargers rows)).map (fun t => t.2.1)).sum =
      (cleanChargers rows).length ∧
    chargersInstalled (cleanChargers exChargersD) =
      [(2019, 2, 2), (2020, 3, 5)] := by
  constructor
  · rw [chargersInstalled, yearlyAgg_map_num]
    have hs := sum_sortedUniqueYears_counts (yearsCol (cleanChargers rows))
    rw [groupCounts, groupKeys]
    rw [hs]
    simp [yearsCol]
  · decide

/-- C7: the derived `otherULEVs` value of a vehicle row is the sum of the
four designated sub-category columns (spreadsheet positions 3..6) of that
row. -/
theorem claim_C7_otherULEVs (r : CarRow) (a b c d e f : ℤ) (rest : List ℤ)
    (h : r.cols = a :: b :: c :: d :: e :: f :: rest) :
    otherULEVs r = c + d + e + f := by
  rw [otherULEVs, h]
  show (List.take 4 (c :: d :: e :: f :: rest)).sum = c + d + e + f
  cases rest with
  | nil => simp; ring
  | cons g t => simp; ring

/-- Witness for C7: the spec's example — sub-columns `[1, 2, 3, 4]` give
`otherULEVs = 10`. -/
theorem claim_C7_witness :
    otherULEVs ⟨2020, [7, 8, 1, 2, 3, 4]⟩ = 10 := by
  have h := claim_C7_otherULEVs ⟨2020, [7, 8, 1, 2, 3, 4]⟩ 7 8 1 2 3 4 [] rfl
  rw [h]; norm_num

/-- C2: every row of the inner-joined table pairs a charger-aggregate row
and a vehicle row with equal year keys (`yearCreated == Date`), and that
year is present in both source tables. -/
theorem claim_C2_join (chargers : List ChargerRow) (cars : List CarRow)
    (p : (Int × Nat × Nat) × (CarRow × ℤ)) (hp : p ∈ evMerged chargers cars) :
    p.1.1 = p.2.1.Date ∧
    p.1.1 ∈ (chargersInstalled (cleanChargers chargers)).map (fun t => t.1) ∧
    p.2.1.Date ∈ cars.map CarRow.Date := by
  rcases List.mem_flatMap.1 hp with ⟨l, hl, hpl⟩
  rcases List.mem_map.1 hpl with ⟨rc, hrc, hprc⟩
  obtain ⟨car, q⟩ := rc
  have hfil := List.mem_filter.1 hrc
  have hkey : car.Date = l.1 := by simpa using hfil.2
  have hcar : car ∈ cars := (List.of_mem_zip hfil.1).1
  subst hprc
  refine ⟨hkey.symm, ?_, ?_⟩
  · exact List.mem_map.2 ⟨l, hl, rfl⟩
  · exact List.mem_map.2 ⟨car, hcar, rfl⟩

/-- Witness for C2: on the concrete input the joined row for 2019 has its
year present in the charger aggregate. -/
theorem claim_C2_witness :
    ((2019 : Int), 1, 2).1 ∈
      (chargersInstalled (cleanChargers exChargersA)).map (fun t => t.1) :=
  (claim_C2_join exChargersA exCarsA
    ((2019, 1, 2), (⟨2019, [4, 0, 0, 0, 0, 0]⟩, 4)) (by decide)).2.1

/-- C5: in the yearly aggregate of a cleaned charger table, the
`rollingSUM` column is non-decreasing from each row to the next, and it
strictly increases exactly when the next row's `num_charges` is
positive. -/
theorem claim_C5_rollingSUM (rows : List ChargerRow) (i : Nat)
    (h : i + 1 < (chargersInstalled (cleanChargers rows)).length) :
    ((chargersInstalled (cleanChargers rows)).map (fun t => t.2.2)).getD i 0 ≤
      ((chargersInstalled (cleanChargers rows)).map (fun t => t.2.2)).getD
        (i + 1) 0 ∧
    (((chargersInstalled (cleanChargers rows)).map (fun t => t.2.2)).getD i 0 <
      ((chargersInstalled (cleanChargers rows)).map (fun t => t.2.2)).getD
        (i + 1) 0 ↔
      0 < ((chargersInstalled (cleanChargers rows)).map (fun t => t.2.1)).getD
        (i + 1) 0) := by
  rw [chargersInstalled] at h ⊢
  rw [yearlyAgg_map_roll, yearlyAgg_map_num]
  rw [length_yearlyAgg] at h
  have hlen : i + 1 < (groupCounts (cleanChargers rows)).length := by
    rw [length_groupCounts]; exact h
  have hi : i < (groupCounts (cleanChargers rows)).length :=
    Nat.lt_of_succ_lt hlen
  rw [cumsum_getD _ i hi, cumsum_getD _ (i + 1) hlen,
    List.sum_take_succ _ (i + 1) hlen, List.getD_eq_getElem _ 0 hlen]
  omega

/-- Witness for C5: on a concrete three-year input, `rollingSUM` does not
decrease between the first two aggregate rows. -/
theorem claim_C5_witness :
    ((chargersInstalled (cleanChargers exChargersA)).map
      (fun t => t.2.2)).getD 0 0 ≤
    ((chargersInstalled (cleanChargers exChargersA)).map
      (fun t => t.2.2)).getD 1 0 :=
  (claim_C5_rollingSUM exChargersA 0 (by decide)).1

/-- C8: `plug_rollingSUM` at row `i` is the sum of the first `i + 1`
per-row battery-electric-plus-plug-in-hybrid values, and under
non-negative input columns it does not decrease from row `i` to row
`i + 1`. -/
theorem claim_C8_plugRollingSUM (cars : List CarRow) (i : Nat)
    (hnn : ∀ r ∈ cars, ∀ x ∈ r.cols.take 2, 0 ≤ x)
    (hi : i + 1 < cars.length) :
    (plugRollingSUM cars).getD i 0 = ((cars.map plugBase).take (i + 1)).sum ∧
    (plugRollingSUM cars).getD i 0 ≤ (plugRollingSUM cars).getD (i + 1) 0 := by
  have hlen2 : i + 1 < (cars.map plugBase).length := by simpa using hi
  have hlen1 : i < (cars.map plugBase).length := Nat.lt_of_succ_lt hlen2
  constructor
  · rw [plugRollingSUM, cumsum_getD _ i hlen1]
  · rw [plugRollingSUM, cumsum_getD _ i hlen1, cumsum_getD _ (i + 1) hlen2,
      List.sum_take_succ _ (i + 1) hlen2]
    have hmem : (cars.map plugBase)[i + 1] ∈ cars.map plugBase :=
      List.getElem_mem hlen2
    rcases List.mem_map.1 hmem with ⟨r, hr, hval⟩
    have hnnr : 0 ≤ plugBase r := List.sum_nonneg (hnn r hr)
    have h0 : 0 ≤ (cars.map plugBase)[i + 1] := hval ▸ hnnr
    linarith

/-- Witness for C8: on two non-negative vehicle rows the cumulative
plug-in sum does not decrease. -/
theorem claim_C8_witness :
    (plugRollingSUM exCarsA).getD 0 0 ≤ (plugRollingSUM exCarsA).getD 1 0 :=
  (claim_C8_plugRollingSUM exCarsA 0 (by decide) (by decide)).2

/-- C6: the in-service aggregate row at index `i` carries a year realised
by some in-service non-2021 cleaned row, its `num_charges_in_service` is
the number of such rows with that year, its `rollingSUM_in_service` is the
running sum of the counts column through index `i`; membership in the
filtered row set is exactly status `"In service"` plus year `≠ 2021` among
cleaned rows, and every filtered row's year appears in the aggregate. -/
theorem claim_C6_inService (rows : List ChargerRow) (i : Nat)
    (h : i < (inServiceAgg rows).length) :
    (∀ r, r ∈ inServiceRows rows ↔
        r ∈ cleanChargers rows ∧ r.chargeDeviceStatus = "In service" ∧
          yearCreated r ≠ 2021) ∧
    (∃ y c s, (inServiceAgg rows).get? i = some (y, c, s) ∧
      c = ((inServiceRows rows).filter (fun r => yearCreated r = y)).length ∧
      s = (((inServiceAgg rows).map (fun t => t.2.1)).take (i + 1)).sum ∧
      (∃ r ∈ inServiceRows rows, yearCreated r = y)) ∧
    (∀ r ∈ inServiceRows rows,
      yearCreated r ∈ (inServiceAgg rows).map (fun t => t.1)) := by
  have hkey : i < (groupKeys (inServiceRows rows)).length := by
    rw [inServiceAgg, length_yearlyAgg] at h; exact h
  refine ⟨?_, ?_, ?_⟩
  · intro r
    constructor
    · intro hr
      have hm := List.mem_filter.1 hr
      refine ⟨hm.1, ?_⟩
      simpa using hm.2
    · intro ⟨h1, h2, h3⟩
      exact List.mem_filter.2 ⟨h1, by simpa using And.intro h2 h3⟩
  · refine ⟨(groupKeys (inServiceRows rows)).getD i 0,
      (groupCounts (inServiceRows rows)).getD i 0,
      ((groupCounts (inServiceRows rows)).take (i + 1)).sum, ?_, ?_, ?_, ?_⟩
    · exact yearlyAgg_get? (inServiceRows rows) i hkey
    · rw [groupCounts_getD (inServiceRows rows) i hkey]
      exact count_map_year (inServiceRows rows) _
    · rw [inServiceAgg, yearlyAgg_map_num]
    · have hy : (groupKeys (inServiceRows rows)).getD i 0 ∈
          groupKeys (inServiceRows rows) := by
        rw [List.getD_eq_getElem _ 0 hkey]
        exact List.getElem_mem hkey
      have hyc : (groupKeys (inServiceRows rows)).getD i 0 ∈
          yearsCol (inServiceRows rows) := mem_sortedUniqueYears.1 hy
      rcases List.mem_map.1 hyc with ⟨r, hr, hry⟩
      exact ⟨r, hr, hry⟩
  · intro r hr
    rw [inServiceAgg, yearlyAgg_map_fst]
    exact mem_sortedUniqueYears.2 (List.mem_map.2 ⟨r, hr, rfl⟩)

/-- Witness for C6: the first row of the in-service aggregate of the
concrete input satisfies the characterisation. -/
theorem claim_C6_witness :
    ∃ y c s, (inServiceAgg exChargersA).get? 0 = some (y, c, s) ∧
      c = ((inServiceRows exChargersA).filter
        (fun r => yearCreated r = y)).length ∧
      s = (((inServiceAgg exChargersA).map (fun t => t.2.1)).take 1).sum ∧
      (∃ r ∈ inServiceRows exChargersA, yearCreated r = y) :=
  (claim_C6_inService exChargersA 0 (by decide)).2.1

/-- C1 counterexample: on a concrete input (an in-service 2018 charger
year absent from the vehicle table, a 2020 charger year that is not in
service), the program's ratio series differs from the series computed
with both operands taken from the joined-on-year data: the divisor the
program uses is the separately built in-service cumulative array, not a
joined column. -/
theorem claim_C1_counterexample :
    ratioSeries exChargersA exCarsA ≠
      Except.ok (ratioSpecClaim exChargersA exCarsA) := by
  have h1 : ratioSeries exChargersA exCarsA =
      Except.ok [npDiv 4 1, npDiv 6 2] := rfl
  have h2 : ratioSpecClaim exChargersA exCarsA = [npDiv 4 2, npDiv 6 2] := rfl
  rw [h1, h2]
  intro h
  have hl := Except.ok.inj h
  have hh : npDiv 4 1 = npDiv 4 2 := (List.cons.inj hl).1
  rw [npDiv_of_ne 4 1 (by norm_num), npDiv_of_ne 4 2 (by norm_num)] at hh
  have hq := NpVal.fin.inj hh
  norm_num at hq

/-- C1 (amended): the ratio series is the positional elementwise division
of the joined table's `plug_rollingSUM` array by the separately computed
cumulative in-service array, and when the two arrays have equal length
greater than 8 the `'2020'` scalar is the element at zero-based index 8
of that series. -/
theorem claim_C1_ratioSeries (chargers : List ChargerRow) (cars : List CarRow)
    (hlen : (plugArray chargers cars).length = (chargersAvailZ chargers).length)
    (h9 : 8 < (plugArray chargers cars).length) :
    ratioSeries chargers cars =
      Except.ok (List.zipWith npDiv (plugArray chargers cars)
        (chargersAvailZ chargers)) ∧
    ratioScalar2020 chargers cars =
      Except.ok (npDiv ((plugArray chargers cars).getD 8 0)
        ((chargersAvailZ chargers).getD 8 0)) := by
  have hser : ratioSeries chargers cars =
      Except.ok (List.zipWith npDiv (plugArray chargers cars)
        (chargersAvailZ chargers)) := by
    simp only [ratioSeries, npDivArr]
    rw [if_pos hlen]
  refine ⟨hser, ?_⟩
  have h9b : 8 < (chargersAvailZ chargers).length := hlen ▸ h9
  have hg : (List.zipWith npDiv (plugArray chargers cars)
      (chargersAvailZ chargers)).get? 8 =
      some (npDiv ((plugArray chargers cars).getD 8 0)
        ((chargersAvailZ chargers).getD 8 0)) := by
    rw [List.get?_zipWith', getD_of_lt _ 0 8 h9, getD_of_lt _ 0 8 h9b]
    rfl
  simp only [ratioScalar2020, hser]
  show npIndex (List.zipWith npDiv (plugArray chargers cars)
    (chargersAvailZ chargers)) 8 = _
  simp only [npIndex]
  rw [hg]

/-- Witness for the amended C1: nine matching years, equal array lengths,
scalar at index 8. -/
theorem claim_C1_witness :
    ratioScalar2020 exChargersB exCarsC =
      Except.ok (npDiv ((plugArray exChargersB exCarsC).getD 8 0)
        ((chargersAvailZ exChargersB).getD 8 0)) :=
  (claim_C1_ratioSeries exChargersB exCarsC (by decide) (by decide)).2

/-- C9 counterexample: with nine in-service charger years and a single
matching vehicle year the joined table has one row (fewer than nine), yet
numpy length-1 broadcasting makes `ratio[8]` return the finite value
`5 / 9` instead of raising. -/
theorem claim_C9_counterexample :
    (evMerged exChargersB exCarsB).length = 1 ∧
    ratioScalar2020 exChargersB exCarsB = Except.ok (npDiv 5 9) :=
  ⟨by decide, rfl⟩

/-- C9 (amended): if the joined table has fewer than nine rows, the ratio
extraction raises an error (index out of range or broadcast failure) —
never a silent null — except in the length-1 broadcast case where the
joined table has exactly one row and the in-service array has at least
nine entries, which instead yields a broadcast scalar. -/
theorem claim_C9_error (chargers : List ChargerRow) (cars : List CarRow)
    (h : (evMerged chargers cars).length < 9)
    (hb : ¬((evMerged chargers cars).length = 1 ∧
        9 ≤ (chargersAvailZ chargers).length)) :
    ∃ msg, ratioScalar2020 chargers cars = Except.error msg := by
  have hxs : (plugArray chargers cars).length =
      (evMerged chargers cars).length := by
    simp [plugArray]
  simp only [ratioScalar2020, ratioSeries, npDivArr]
  by_cases h1 : (plugArray chargers cars).length =
      (chargersAvailZ chargers).length
  · rw [if_pos h1]
    refine ⟨"IndexError: index out of bounds", ?_⟩
    show npIndex (List.zipWith npDiv (plugArray chargers cars)
      (chargersAvailZ chargers)) 8 = _
    have hle : (List.zipWith npDiv (plugArray chargers cars)
        (chargersAvailZ chargers)).length ≤ 8 := by
      rw [List.length_zipWith]
      omega
    simp only [npIndex]
    rw [List.get?_eq_none.2 hle]
  · rw [if_neg h1]
    by_cases h2 : (plugArray chargers cars).length = 1
    · rw [if_pos h2]
      have hys : (chargersAvailZ chargers).length ≤ 8 := by
        by_contra hc
        push_neg at hc
        exact hb ⟨by omega, by omega⟩
      refine ⟨"IndexError: index out of bounds", ?_⟩
      show npIndex ((chargersAvailZ chargers).map
        (fun y => npDiv (plugArray chargers cars).headI y)) 8 = _
      simp only [npIndex]
      rw [List.get?_eq_none.2 (by simpa using hys)]
    · rw [if_neg h2]
      by_cases h3 : (chargersAvailZ chargers).length = 1
      · rw [if_pos h3]
        refine ⟨"IndexError: index out of bounds", ?_⟩
        show npIndex ((plugArray chargers cars).map
          (fun x => npDiv x (chargersAvailZ chargers).headI)) 8 = _
        simp only [npIndex]
        have hxle : (plugArray chargers cars).length ≤ 8 := by omega
        rw [List.get?_eq_none.2 (by simpa using hxle)]
      · rw [if_neg h3]
        exact ⟨"ValueError: operands could not be broadcast together", rfl⟩

/-- Witness for the amended C9: two joined rows, equal array lengths,
index 8 out of range. -/
theorem claim_C9_witness :
    ∃ msg, ratioScalar2020 exChargersA exCarsA = Except.error msg :=
  claim_C9_error exChargersA exCarsA (by decide) (by decide)

/-- C10 counterexample (negation of the claimed existence): no input ever
places a zero in the `chargers_avail` divisor array, because every entry
is a cumulative sum of per-year group counts that are each at least one. -/
theorem claim_C10_counterexample :
    ¬ ∃ (rows : List ChargerRow) (i : Nat),
        (chargersAvail rows).get? i = some 0 := by
  rintro ⟨rows, i, hi⟩
  have h1 := chargersAvail_pos rows 0 (List.get?_mem hi)
  omega

/-- C10 (amended): the division operator is unguarded in itself, but the
zero-divisor case is unreachable — whenever the ratio series is computed
successfully, every resulting value (hence any extracted scalar) is
finite. -/
theorem claim_C10_finite (chargers : List ChargerRow) (cars : List CarRow)
    (l : List NpVal) (v : NpVal)
    (hl : ratioSeries chargers cars = Except.ok l) (hv : v ∈ l) :
    ∃ q, v = NpVal.fin q := by
  have hpos : ∀ b ∈ chargersAvailZ chargers, b ≠ 0 := by
    intro b hb
    simp only [chargersAvailZ] at hb
    rcases List.mem_map.1 hb with ⟨n, hn, hn2⟩
    have h1 := chargersAvail_pos chargers n hn
    intro hc
    rw [← hn2, Int.natCast_eq_zero] at hc
    omega
  simp only [ratioSeries, npDivArr] at hl
  by_cases h1 : (plugArray chargers cars).length =
      (chargersAvailZ chargers).length
  · rw [if_pos h1] at hl
    have hz := Except.ok.inj hl
    rw [← hz] at hv
    rcases exists_of_mem_zipWith hv with ⟨a, b, _, hb, hc⟩
    exact ⟨(a : ℚ) / (b : ℚ), by rw [hc, npDiv_of_ne a b (hpos b hb)]⟩
  · rw [if_neg h1] at hl
    by_cases h2 : (plugArray chargers cars).length = 1
    · rw [if_pos h2] at hl
      have hz := Except.ok.inj hl
      rw [← hz] at hv
      rcases List.mem_map.1 hv with ⟨b, hb, hc⟩
      exact ⟨_, by rw [← hc, npDiv_of_ne _ b (hpos b hb)]⟩
    · rw [if_neg h2] at hl
      by_cases h3 : (chargersAvailZ chargers).length = 1
      · rw [if_pos h3] at hl
        have hz := Except.ok.inj hl
        rw [← hz] at hv
        rcases List.mem_map.1 hv with ⟨a, _, hc⟩
        rcases List.length_eq_one.1 h3 with ⟨y, hy⟩
        have hmem : (chargersAvailZ chargers).headI ∈ chargersAvailZ chargers := by
          rw [hy]; exact List.mem_cons_self _ _
        exact ⟨_, by rw [← hc, npDiv_of_ne a _ (hpos _ hmem)]⟩
      · rw [if_neg h3] at hl
        exact absurd hl (by simp)

/-- Witness for the amended C10: on the concrete input the first computed
ratio value is finite. -/
theorem claim_C10_witness : ∃ q, npDiv 4 1 = NpVal.fin q :=
  claim_C10_finite exChargersA exCarsA [npDiv 4 1, npDiv 6 2] (npDiv 4 1)
    rfl (List.mem_cons_self _ _)
